import Mathlib

/-!
# Verification of the SearchBot query-processing pipeline

A shallow embedding of `src/searchbot.py` (class `SearchBot`): query loading
and filtering, per-query search execution with pacing and failure isolation,
result persistence to an append-only log, and session statistics.

Modelling conventions:
* the queries file and the results file are `Option String` (`none` = the
  path does not exist, `some c` = it exists with content `c`);
* the search provider (`googlesearch.search`) is an oracle
  `String → Nat → ProviderBehavior`: for a query and a result cap it gives
  the stream of URLs the generator would yield, and optionally the point at
  which iteration raises (`failAfter = some (j, kind)` means the iterator
  raises an exception of class `kind` when asked for URL number `j + 1`);
* `time.sleep(random.uniform(lo, hi))` is modelled as a counted effect
  `Effect.sleepUniform lo hi` carrying the requested duration range;
* `datetime.now()` is an oracle `Nat → DateTime` indexed by the (1-based)
  query position; `strftime('%Y-%m-%d %H:%M:%S')` is embedded as
  `pyStrftime`;
* an `OSError` while opening/writing the results file is modelled by the
  flag `writable : Bool`; the exception is an `Except.error` value that the
  embedded `run` threads outward, exactly as Python propagates it (no
  `try` surrounds `save_results` or the loop body in `run`).
-/

/-! ## Python string primitives used by the source -/

/-- The whitespace characters removed by Python's `str.strip()`
(ASCII subset: space, tab, newline, carriage return, vertical tab,
form feed). -/
def pyIsSpace (c : Char) : Bool :=
  c = ' ' || c = '\t' || c = '\n' || c = '\r' || c = '\x0b' || c = '\x0c'

/-- Python `s.strip()`: remove leading and trailing whitespace. -/
def pyStrip (s : String) : String :=
  ⟨List.rdropWhile pyIsSpace (s.data.dropWhile pyIsSpace)⟩

/-- Python `s.startswith('#')`. -/
def startsWithHash (s : String) : Bool :=
  match s.data with
  | c :: _ => c = '#'
  | [] => false

/-- Splitting a file's content into the lines that iterating over the open
file yields, with the trailing `'\n'` of each line removed (the source
always passes lines through `strip()`, so the terminator never survives). -/
def splitLinesAux : List Char → List Char → List String
  | [], acc => [⟨acc.reverse⟩]
  | '\n' :: rest, acc => ⟨acc.reverse⟩ :: splitLinesAux rest []
  | c :: rest, acc => splitLinesAux rest (c :: acc)

/-- The lines of a file content, Python-iteration style: a trailing
newline does not start an extra empty line. -/
def pyLines (s : String) : List String :=
  let parts := splitLinesAux s.data []
  if parts.getLast? = some "" then parts.dropLast else parts

/-! ## QuerySource (`setup_queries_file`, `load_queries`) -/

/-- The default template written by `setup_queries_file`
(the seven `f.write` calls, concatenated). -/
def templateContent : String :=
  "# SearchBot Queries File\n" ++
  "# Add your search queries here, one per line\n" ++
  "# Lines starting with # are comments and will be ignored\n\n" ++
  "# Example queries:\n" ++
  "# python web scraping tutorial\n" ++
  "# machine learning best practices\n" ++
  "# REST API design patterns\n"

/-- `setup_queries_file`: create the template iff the path does not exist. -/
def setup_queries_file (fs : Option String) : Option String :=
  match fs with
  | none => some templateContent
  | some c => some c

/-- The filter of the list comprehension in `load_queries`:
`line.strip() and not line.strip().startswith('#')`. -/
def keepLine (l : String) : Bool :=
  !(pyStrip l).data.isEmpty && !startsWithHash (pyStrip l)

/-- The list comprehension
`[line.strip() for line in file if line.strip() and not ...]`. -/
def load_queries_list (lines : List String) : List String :=
  (lines.filter keepLine).map pyStrip

/-- `load_queries`: ensure the file exists, re-check existence
(returning `[]` if it still does not exist), then read and filter.
Returns the loaded queries together with the file state after the call. -/
def load_queries (fs : Option String) : List String × Option String :=
  match setup_queries_file fs with
  | none => ([], none)
  | some content => (load_queries_list (pyLines content), some content)

/-! ## Session statistics and the provider oracle -/

/-- `self.session_stats = {"queries_processed": 0, "urls_found": 0, "errors": 0}`. -/
structure SessionStats where
  queries_processed : Nat
  urls_found : Nat
  errors : Nat
  deriving Repr, DecidableEq

/-- The two exception classes distinguished by `search_query`:
`requests.exceptions.HTTPError` and any other `Exception`. -/
inductive SearchFailure
  | httpError
  | otherError
  deriving Repr, DecidableEq

/-- What the provider's URL generator does for one query: the URLs it
would yield, and optionally the point where iteration raises instead
(`some (j, k)`: the call asking for URL number `j + 1` raises `k`). -/
structure ProviderBehavior where
  stream : List String
  failAfter : Option (Nat × SearchFailure)
  deriving Repr, DecidableEq

/-- Observable effects: a URL appended to the output, and a
`time.sleep(random.uniform(lo, hi))` with its requested range. -/
inductive Effect
  | collect (url : String)
  | sleepUniform (lo hi : ℚ)
  deriving Repr, DecidableEq

/-- The effects of one loop iteration in `search_query`: append the URL,
then sleep for a duration drawn from `[0.5, 1.5)`. -/
def perUrlEffects (u : String) : List Effect :=
  [Effect.collect u, Effect.sleepUniform (1/2) (3/2)]

/-- The `for i, url in enumerate(search(...))` loop: each `next` on the
iterator either raises (failure counter hit zero), stops (stream
exhausted), or yields a URL, which is appended and followed by the
per-URL sleep. -/
def collectLoop : List String → Option Nat → List String × List Effect
  | _, some 0 => ([], [])
  | [], _ => ([], [])
  | u :: rest, fa =>
      let (us, tr) := collectLoop rest (fa.map (· - 1))
      (u :: us, Effect.collect u :: Effect.sleepUniform (1/2) (3/2) :: tr)

/-- Whether iterating the generator raises: a failure point exists and the
loop reaches it (the raising `next` call happens iff at most
`stream.length` URLs precede it). -/
def searchRaised (b : ProviderBehavior) : Bool :=
  match b.failAfter with
  | some (j, _) => decide (j ≤ b.stream.length)
  | none => false

/-- The URLs `search_query` ends up with: the full stream on success, the
prefix collected before the raise on failure. -/
def collected (b : ProviderBehavior) : List String :=
  match b.failAfter with
  | some (j, _) => b.stream.take j
  | none => b.stream

/-- The effect trace of one `search_query` call. -/
def queryTrace (b : ProviderBehavior) : List Effect :=
  (collectLoop b.stream (b.failAfter.map Prod.fst)).2

/-- `search_query`: collect URLs until the iterator stops or raises; both
`except` clauses (`HTTPError` and generic `Exception`) swallow the
exception and increment `errors`; the collected URLs are returned. -/
def search_query (b : ProviderBehavior) (st : SessionStats) :
    List String × SessionStats × List Effect :=
  let (urls, tr) := collectLoop b.stream (b.failAfter.map Prod.fst)
  if searchRaised b then
    (urls, { st with errors := st.errors + 1 }, tr)
  else
    (urls, st, tr)

/-! ## Timestamps (`datetime.now().strftime('%Y-%m-%d %H:%M:%S')`) -/

/-- A wall-clock instant as `datetime.now()` exposes it. -/
structure DateTime where
  year : Nat
  month : Nat
  day : Nat
  hour : Nat
  minute : Nat
  second : Nat
  deriving Repr, DecidableEq

/-- Zero-padding to two digits, as `%m`, `%d`, `%H`, `%M`, `%S` do. -/
def pad2 (n : Nat) : String :=
  if n < 10 then "0" ++ Nat.repr n else Nat.repr n

/-- `strftime('%Y-%m-%d %H:%M:%S')`. -/
def pyStrftime (d : DateTime) : String :=
  Nat.repr d.year ++ "-" ++ pad2 d.month ++ "-" ++ pad2 d.day ++ " " ++
  pad2 d.hour ++ ":" ++ pad2 d.minute ++ ":" ++ pad2 d.second

/-- Field ranges `datetime.now()` guarantees (years restricted to four
decimal digits, which covers every `datetime` year ≥ 1000). -/
def validDT (d : DateTime) : Prop :=
  1000 ≤ d.year ∧ d.year ≤ 9999 ∧ 1 ≤ d.month ∧ d.month ≤ 12 ∧
  1 ≤ d.day ∧ d.day ≤ 31 ∧ d.hour ≤ 23 ∧ d.minute ≤ 59 ∧ d.second ≤ 59

/-- `YYYY-MM-DD HH:MM:SS` shape: 19 characters, digits in the date/time
positions, `-`, space and `:` separators. -/
def isTimestampForm (s : String) : Bool :=
  match s.data with
  | [y1, y2, y3, y4, a1, mo1, mo2, a2, d1, d2, sp, h1, h2, b1, mi1, mi2, b2, s1, s2] =>
      y1.isDigit && y2.isDigit && y3.isDigit && y4.isDigit &&
      a1 = '-' && mo1.isDigit && mo2.isDigit && a2 = '-' &&
      d1.isDigit && d2.isDigit && sp = ' ' &&
      h1.isDigit && h2.isDigit && b1 = ':' && mi1.isDigit && mi2.isDigit &&
      b2 = ':' && s1.isDigit && s2.isDigit
  | _ => false

/-! ## ResultSink (`save_results`) -/

/-- `"-" * 50`. -/
def sepLine : String := ⟨List.replicate 50 '-'⟩

/-- The `for url in urls: f.write(f"{url}\n")` loop. -/
def urlLines : List String → String
  | [] => ""
  | u :: rest => u ++ "\n" ++ urlLines rest

/-- The text one `save_results` call appends: the six `f.write` calls of
the source, in order (note the `"\n"` opening the first write). -/
def resultEntry (q : String) (urls : List String) (now : DateTime) : String :=
  ("\n" ++ "# Query: " ++ q ++ "\n") ++
  (("# Timestamp: " ++ pyStrftime now ++ "\n") ++
   (("# Results: " ++ Nat.repr urls.length ++ " URLs\n") ++
    ((sepLine ++ "\n") ++
     (urlLines urls ++ "\n"))))

/-- The block format as the specification lists it (§4.3): query header,
timestamp, count line, 50-dash separator, one line per URL, trailing
blank line — with no leading separator. Spec-side definition, to be
compared with `resultEntry`. -/
def specBlock (q : String) (urls : List String) (now : DateTime) : String :=
  "# Query: " ++ q ++ "\n" ++
  "# Timestamp: " ++ pyStrftime now ++ "\n" ++
  "# Results: " ++ Nat.repr urls.length ++ " URLs\n" ++
  sepLine ++ "\n" ++
  urlLines urls ++ "\n"

/-- Failure of `open(self.results_file, "a")` or of a write to it. -/
inductive PersistenceError
  | cannotWrite
  deriving Repr, DecidableEq

/-- `save_results`: return immediately when `urls` is empty (before any
file is opened); otherwise open the log in append mode — creating it if
absent — and append the entry, or raise if the log is not writable. -/
def save_results (writable : Bool) (file : Option String) (q : String)
    (urls : List String) (now : DateTime) : Except PersistenceError (Option String) :=
  if urls.isEmpty then .ok file
  else if writable then .ok (some (file.getD "" ++ resultEntry q urls now))
  else .error .cannotWrite

/-- The file state `save_results` produces when the log is writable. -/
def appendPure (file : Option String) (q : String) (urls : List String)
    (now : DateTime) : Option String :=
  if urls.isEmpty then file else some (file.getD "" ++ resultEntry q urls now)

/-! ## SessionRunner (`run`) -/

/-- Mutable state of a session: the statistics and the results file. -/
structure RunState where
  stats : SessionStats
  file : Option String
  deriving Repr, DecidableEq

/-- How a session ends: normally, or by a persistence exception escaping
`run` (no handler catches it). Either way the state reached and the
effect trace so far are recorded. -/
inductive RunResult
  | ok (st : RunState) (tr : List Effect)
  | persistenceError (st : RunState) (tr : List Effect)
  deriving Repr, DecidableEq

/-- The statistics update of one loop iteration of `run`: the error
increment happens inside `search_query`, then `queries_processed` and
`urls_found` are incremented after `save_results` returns. -/
def stepStats (b : ProviderBehavior) (st : SessionStats) : SessionStats :=
  { queries_processed := st.queries_processed + 1
    urls_found := st.urls_found + (collected b).length
    errors := st.errors + (if searchRaised b then 1 else 0) }

/-- Statistics after running the loop body over `qs`, starting from the
zeroed stats of `__init__`. Folding over a prefix of the query list gives
the statistics after exactly those iterations. -/
def statsAfter (p : String → Nat → ProviderBehavior) (mr : Nat)
    (qs : List String) : SessionStats :=
  qs.foldl (fun st q => stepStats (p q mr) st) ⟨0, 0, 0⟩

/-- The `for i, query in enumerate(queries, 1)` loop of `run`: search,
save (a raise here aborts the whole loop), bump the counters, and sleep
between queries (`if i < len(queries)`). -/
def runLoop (p : String → Nat → ProviderBehavior) (mr : Nat) (writable : Bool)
    (clock : Nat → DateTime) (N : Nat) :
    Nat → List String → RunState → RunResult
  | _, [], st => .ok st []
  | i, q :: rest, st =>
      let r := search_query (p q mr) st.stats
      match save_results writable st.file q r.1 (clock i) with
      | .error _ => .persistenceError ⟨r.2.1, st.file⟩ r.2.2
      | .ok file2 =>
          let stats2 : SessionStats :=
            { r.2.1 with
              queries_processed := r.2.1.queries_processed + 1
              urls_found := r.2.1.urls_found + r.1.length }
          let inter := if i < N then [Effect.sleepUniform 2 4] else []
          match runLoop p mr writable clock N (i + 1) rest ⟨stats2, file2⟩ with
          | .ok st2 tr2 => .ok st2 (r.2.2 ++ inter ++ tr2)
          | .persistenceError st2 tr2 => .persistenceError st2 (r.2.2 ++ inter ++ tr2)

/-- `run`: process the queries in order, starting from the zeroed
statistics of `__init__` (an empty list makes the loop a no-op, matching
the early `return`). -/
def run (p : String → Nat → ProviderBehavior) (mr : Nat) (writable : Bool)
    (clock : Nat → DateTime) (file0 : Option String) (qs : List String) : RunResult :=
  runLoop p mr writable clock qs.length 1 qs ⟨⟨0, 0, 0⟩, file0⟩

/-- The expected trace of `runLoop` from position `i`. -/
def runTraceAux (p : String → Nat → ProviderBehavior) (mr : Nat) (N : Nat) :
    Nat → List String → List Effect
  | _, [] => []
  | i, q :: rest =>
      queryTrace (p q mr) ++ (if i < N then [Effect.sleepUniform 2 4] else []) ++
        runTraceAux p mr N (i + 1) rest

/-- The session state of a normally completed run. -/
def okState : RunResult → Option RunState
  | .ok st _ => some st
  | .persistenceError _ _ => none

/-- The effect trace of a normally completed run. -/
def okTrace : RunResult → Option (List Effect)
  | .ok _ tr => some tr
  | .persistenceError _ _ => none

/-- The results-file state a `save_results` call returned normally with. -/
def okFile : Except PersistenceError (Option String) → Option String
  | .ok f => f
  | .error _ => none

/-! ## Helper lemmas: Python `strip` -/

theorem pyStrip_idem (s : String) : pyStrip (pyStrip s) = pyStrip s := by
  unfold pyStrip
  show String.mk (List.rdropWhile pyIsSpace (List.dropWhile pyIsSpace
      (List.rdropWhile pyIsSpace (s.data.dropWhile pyIsSpace)))) = _
  set y := s.data.dropWhile pyIsSpace with hy_def
  have hy : List.dropWhile pyIsSpace y = y := List.dropWhile_idempotent pyIsSpace s.data
  have key : List.dropWhile pyIsSpace (List.rdropWhile pyIsSpace y)
      = List.rdropWhile pyIsSpace y := by
    obtain ⟨t, ht⟩ := List.rdropWhile_prefix pyIsSpace y
    cases hR : List.rdropWhile pyIsSpace y with
    | nil => simp
    | cons c z =>
      by_cases hc : pyIsSpace c
      · exfalso
        have hcz : c :: (z ++ t) = y := by rw [← ht, hR]; simp
        have h1 : List.dropWhile pyIsSpace y = List.dropWhile pyIsSpace (z ++ t) := by
          rw [← hcz, List.dropWhile_cons_of_pos hc]
        have h2 : (List.dropWhile pyIsSpace (z ++ t)).length ≤ (z ++ t).length :=
          (List.dropWhile_sublist _).length_le
        have h3 : y.length = (z ++ t).length + 1 := by rw [← hcz]; simp
        rw [hy] at h1
        have h4 := congrArg List.length h1
        omega
      · exact List.dropWhile_cons_of_neg hc
  exact congrArg String.mk (by rw [key, List.rdropWhile_idempotent])

/-! ## Helper lemmas: decimal rendering and the timestamp shape -/

theorem digitChar_isDigit : ∀ n : Nat, n < 10 → (Nat.digitChar n).isDigit = true := by
  decide

theorem toDigitsCore_all_digit : ∀ (fuel n : Nat) (acc : List Char),
    (∀ c ∈ acc, c.isDigit = true) →
    ∀ c ∈ Nat.toDigitsCore 10 fuel n acc, c.isDigit = true := by
  intro fuel
  induction fuel with
  | zero => intro n acc hacc c hc; exact hacc c hc
  | succ f ih =>
    intro n acc hacc c hc
    rw [Nat.toDigitsCore] at hc
    by_cases h10 : n / 10 = 0
    · simp only [h10, if_pos] at hc
      rcases List.mem_cons.1 hc with h | h
      · subst h; exact digitChar_isDigit _ (Nat.mod_lt _ (by omega))
      · exact hacc c h
    · simp only [h10, if_neg, if_false] at hc
      refine ih (n / 10) (Nat.digitChar (n % 10) :: acc) ?_ c hc
      intro c' hc'
      rcases List.mem_cons.1 hc' with h | h
      · subst h; exact digitChar_isDigit _ (Nat.mod_lt _ (by omega))
      · exact hacc c' h

theorem toDigitsCore_length : ∀ (fuel n : Nat) (acc : List Char),
    0 < fuel → n < 10 ^ fuel →
    (Nat.toDigitsCore 10 fuel n acc).length = acc.length + Nat.log 10 n + 1 := by
  intro fuel
  induction fuel with
  | zero => omega
  | succ f ih =>
    intro n acc _ hlt
    rw [Nat.toDigitsCore]
    by_cases h10 : n / 10 = 0
    · have hn : n < 10 := by omega
      have : Nat.log 10 n = 0 := Nat.log_eq_zero_iff.2 (Or.inl hn)
      simp [h10, this]
    · have hn10 : 10 ≤ n := by
        rcases Nat.lt_or_ge n 10 with h | h
        · exact absurd (Nat.div_eq_of_lt h) h10
        · exact h
      have hfpos : 0 < f := by
        rcases Nat.eq_zero_or_pos f with rfl | h
        · simp at hlt; omega
        · exact h
      have hdiv : n / 10 < 10 ^ f := by
        rw [Nat.div_lt_iff_lt_mul (by omega)]
        calc n < 10 ^ (f + 1) := hlt
        _ = 10 ^ f * 10 := by rw [Nat.pow_succ]
      have hrec := ih (n / 10) (Nat.digitChar (n % 10) :: acc) hfpos hdiv
      have hlog : Nat.log 10 (n / 10) = Nat.log 10 n - 1 := Nat.log_div_base 10 n
      have hlogpos : 0 < Nat.log 10 n := Nat.log_pos (by omega) hn10
      simp only [h10, if_neg, if_false]
      rw [hrec, hlog]
      simp only [List.length_cons]
      omega

theorem repr_year {n : Nat} (h1 : 1000 ≤ n) (h2 : n ≤ 9999) :
    (Nat.repr n).data.length = 4 ∧ ∀ c ∈ (Nat.repr n).data, c.isDigit = true := by
  have hdata : (Nat.repr n).data = Nat.toDigitsCore 10 (n + 1) n [] := rfl
  constructor
  · rw [hdata, toDigitsCore_length (n + 1) n [] (by omega)
      (lt_of_lt_of_le (Nat.lt_pow_self (by omega) n)
        (Nat.pow_le_pow_right (by omega) (Nat.le_succ n)))]
    have : Nat.log 10 n = 3 :=
      Nat.log_eq_of_pow_le_of_lt_pow (by norm_num; omega) (by norm_num; omega)
    simp [this]
  · rw [hdata]
    exact toDigitsCore_all_digit (n + 1) n [] (by simp)

theorem pad2_shape : ∀ n : Nat, n < 100 →
    ((pad2 n).data.length = 2 ∧ (pad2 n).data.all Char.isDigit = true) := by
  decide

theorem data_two {l : List Char} (h : l.length = 2) : ∃ a b, l = [a, b] :=
  List.length_eq_two.1 h

theorem data_four {l : List Char} (h : l.length = 4) : ∃ a b c d, l = [a, b, c, d] := by
  obtain ⟨a, t, rfl⟩ := List.exists_of_length_succ l h
  simp only [List.length_cons, Nat.succ_inj] at h
  obtain ⟨b, c, d, rfl⟩ := List.length_eq_three.1 h
  exact ⟨a, b, c, d, rfl⟩

theorem timestamp_form {d : DateTime} (h : validDT d) :
    isTimestampForm (pyStrftime d) = true := by
  obtain ⟨hy1, hy2, hmo1, hmo2, hd1, hd2, hh, hmi, hs⟩ := h
  obtain ⟨hylen, hydig⟩ := repr_year hy1 hy2
  obtain ⟨y1, y2, y3, y4, hy⟩ := data_four hylen
  obtain ⟨hmolen, hmodig⟩ := pad2_shape d.month (by omega)
  obtain ⟨mo1, mo2, hmo⟩ := data_two hmolen
  obtain ⟨hdlen, hddig⟩ := pad2_shape d.day (by omega)
  obtain ⟨d1, d2, hd⟩ := data_two hdlen
  obtain ⟨hhlen, hhdig⟩ := pad2_shape d.hour (by omega)
  obtain ⟨h1, h2, hhr⟩ := data_two hhlen
  obtain ⟨hmilen, hmidig⟩ := pad2_shape d.minute (by omega)
  obtain ⟨mi1, mi2, hmi2⟩ := data_two hmilen
  obtain ⟨hslen, hsdig⟩ := pad2_shape d.second (by omega)
  obtain ⟨s1, s2, hs2⟩ := data_two hslen
  rw [List.all_eq_true] at hmodig hddig hhdig hmidig hsdig
  have hdata : (pyStrftime d).data
      = (Nat.repr d.year).data ++ "-".data ++ (pad2 d.month).data ++ "-".data ++
        (pad2 d.day).data ++ " ".data ++ (pad2 d.hour).data ++ ":".data ++
        (pad2 d.minute).data ++ ":".data ++ (pad2 d.second).data := by
    simp [pyStrftime, String.data_append]
  have e1 : y1.isDigit = true := hydig y1 (by rw [hy]; simp)
  have e2 : y2.isDigit = true := hydig y2 (by rw [hy]; simp)
  have e3 : y3.isDigit = true := hydig y3 (by rw [hy]; simp)
  have e4 : y4.isDigit = true := hydig y4 (by rw [hy]; simp)
  have e5 : mo1.isDigit = true := hmodig mo1 (by rw [hmo]; simp)
  have e6 : mo2.isDigit = true := hmodig mo2 (by rw [hmo]; simp)
  have e7 : d1.isDigit = true := hddig d1 (by rw [hd]; simp)
  have e8 : d2.isDigit = true := hddig d2 (by rw [hd]; simp)
  have e9 : h1.isDigit = true := hhdig h1 (by rw [hhr]; simp)
  have e10 : h2.isDigit = true := hhdig h2 (by rw [hhr]; simp)
  have e11 : mi1.isDigit = true := hmidig mi1 (by rw [hmi2]; simp)
  have e12 : mi2.isDigit = true := hmidig mi2 (by rw [hmi2]; simp)
  have e13 : s1.isDigit = true := hsdig s1 (by rw [hs2]; simp)
  have e14 : s2.isDigit = true := hsdig s2 (by rw [hs2]; simp)
  unfold isTimestampForm
  rw [hdata, hy, hmo, hd, hhr, hmi2, hs2]
  simp only [List.cons_append, List.nil_append, List.append_assoc]
  simp [e1, e2, e3, e4, e5, e6, e7, e8, e9, e10, e11, e12, e13, e14]

/-! ## Helper lemmas: the appended block -/

theorem resultEntry_eq (q : String) (urls : List String) (now : DateTime) :
    resultEntry q urls now = "\n" ++ specBlock q urls now := by
  unfold resultEntry specBlock
  apply String.ext
  simp only [String.data_append, List.append_assoc]

/-! ## Helper lemmas: URL collection -/

theorem collectLoop_none : ∀ xs : List String,
    collectLoop xs none = (xs, (xs.map perUrlEffects).flatten) := by
  intro xs
  induction xs with
  | nil => rfl
  | cons u rest ih => simp [collectLoop, ih, perUrlEffects]

theorem collectLoop_some : ∀ (xs : List String) (j : Nat),
    collectLoop xs (some j) = (xs.take j, ((xs.take j).map perUrlEffects).flatten) := by
  intro xs
  induction xs with
  | nil => intro j; cases j <;> rfl
  | cons u rest ih =>
    intro j
    cases j with
    | zero => rfl
    | succ j' => simp [collectLoop, ih j', perUrlEffects]

theorem queryTrace_eq (b : ProviderBehavior) :
    queryTrace b = ((collected b).map perUrlEffects).flatten := by
  unfold queryTrace collected
  cases hb : b.failAfter with
  | none => simp [collectLoop_none]
  | some jk => simp [collectLoop_some]

theorem search_query_eq (b : ProviderBehavior) (st : SessionStats) :
    search_query b st
      = (collected b,
         ⟨st.queries_processed, st.urls_found,
          st.errors + (if searchRaised b then 1 else 0)⟩,
         queryTrace b) := by
  unfold search_query collected queryTrace
  cases hb : b.failAfter with
  | none =>
    simp [hb, collectLoop_none, searchRaised]
  | some jk =>
    simp only [hb, Option.map_some, collectLoop_some]
    split <;> simp [collectLoop_some]

/-! ## Helper lemmas: persistence -/

theorem save_results_true (f : Option String) (q : String) (urls : List String)
    (now : DateTime) : save_results true f q urls now = .ok (appendPure f q urls now) := by
  unfold save_results appendPure
  split <;> rfl

theorem save_results_empty (w : Bool) (f : Option String) (q : String)
    (now : DateTime) : save_results w f q [] now = .ok f := rfl

theorem save_results_false_nonempty (f : Option String) (q : String)
    (urls : List String) (now : DateTime) (h : urls ≠ []) :
    save_results false f q urls now = .error .cannotWrite := by
  unfold save_results
  rw [if_neg (by simpa using h)]
  rfl

/-! ## Helper lemmas: the session loop -/

theorem runLoop_cons (p : String → Nat → ProviderBehavior) (mr : Nat) (w : Bool)
    (clock : Nat → DateTime) (N i : Nat) (q : String) (rest : List String) (st : RunState) :
    runLoop p mr w clock N i (q :: rest) st
      = (match save_results w st.file q (search_query (p q mr) st.stats).1 (clock i) with
         | .error _ => .persistenceError ⟨(search_query (p q mr) st.stats).2.1, st.file⟩
             (search_query (p q mr) st.stats).2.2
         | .ok file2 =>
             match runLoop p mr w clock N (i + 1) rest
                 ⟨{ (search_query (p q mr) st.stats).2.1 with
                    queries_processed := (search_query (p q mr) st.stats).2.1.queries_processed + 1
                    urls_found := (search_query (p q mr) st.stats).2.1.urls_found
                      + (search_query (p q mr) st.stats).1.length }, file2⟩ with
             | .ok st2 tr2 => .ok st2 ((search_query (p q mr) st.stats).2.2
                 ++ (if i < N then [Effect.sleepUniform 2 4] else []) ++ tr2)
             | .persistenceError st2 tr2 => .persistenceError st2
                 ((search_query (p q mr) st.stats).2.2
                   ++ (if i < N then [Effect.sleepUniform 2 4] else []) ++ tr2)) := by
  rw [runLoop]
  try rfl

theorem runLoop_true (p : String → Nat → ProviderBehavior) (mr : Nat)
    (clock : Nat → DateTime) (N : Nat) :
    ∀ (qs : List String) (i : Nat) (st : RunState),
    ∃ f2, runLoop p mr true clock N i qs st
      = .ok ⟨qs.foldl (fun s q => stepStats (p q mr) s) st.stats, f2⟩
          (runTraceAux p mr N i qs) := by
  intro qs
  induction qs with
  | nil => intro i st; exact ⟨st.file, rfl⟩
  | cons q rest ih =>
    intro i st
    obtain ⟨f2, hrec⟩ := ih (i + 1)
      ⟨stepStats (p q mr) st.stats, appendPure st.file q (collected (p q mr)) (clock i)⟩
    refine ⟨f2, ?_⟩
    rw [runLoop_cons]
    simp only [search_query_eq, save_results_true]
    simp only [stepStats] at hrec
    rw [hrec]
    simp [runTraceAux, stepStats, List.foldl_cons, List.append_assoc]

theorem foldl_stepStats (p : String → Nat → ProviderBehavior) (mr : Nat) :
    ∀ (qs : List String) (init : SessionStats),
    qs.foldl (fun s q => stepStats (p q mr) s) init
      = ⟨init.queries_processed + qs.length,
         init.urls_found + (qs.map (fun q => (collected (p q mr)).length)).sum,
         init.errors + qs.countP (fun q => searchRaised (p q mr))⟩ := by
  intro qs
  induction qs with
  | nil => intro init; simp
  | cons q rest ih =>
    intro init
    rw [List.foldl_cons, ih]
    simp only [stepStats, List.length_cons, List.map_cons, List.sum_cons, List.countP_cons]
    simp only [SessionStats.mk.injEq]
    refine ⟨by omega, by omega, ?_⟩
    generalize (if searchRaised (p q mr) = true then 1 else 0) = e
    omega

theorem runTraceAux_intercalate (p : String → Nat → ProviderBehavior) (mr : Nat) :
    ∀ (qs : List String) (i N : Nat), N + 1 = i + qs.length →
    runTraceAux p mr N i qs
      = List.intercalate [Effect.sleepUniform 2 4]
          (qs.map (fun q => queryTrace (p q mr))) := by
  intro qs
  induction qs with
  | nil => intro i N h; rfl
  | cons q rest ih =>
    intro i N h
    cases rest with
    | nil =>
      have hiN : ¬ i < N := by simp at h; omega
      simp [runTraceAux, hiN, List.intercalate]
    | cons r rest' =>
      have hiN : i < N := by simp at h; omega
      have hrec := ih (i + 1) N (by simp at h ⊢; omega)
      simp only [runTraceAux, hiN, if_pos, List.map_cons] at hrec ⊢
      rw [hrec]
      rw [List.intercalate, List.intercalate, List.intersperse_cons_cons,
        List.flatten_cons, List.flatten_cons]
      simp [List.append_assoc]

theorem foldl_errors_le (p : String → Nat → ProviderBehavior) (mr : Nat) :
    ∀ (qs : List String) (init : SessionStats),
    init.errors ≤ init.queries_processed →
    (qs.foldl (fun s q => stepStats (p q mr) s) init).errors
      ≤ (qs.foldl (fun s q => stepStats (p q mr) s) init).queries_processed := by
  intro qs
  induction qs with
  | nil => intro init h; exact h
  | cons q rest ih =>
    intro init h
    rw [List.foldl_cons]
    refine ih _ ?_
    simp only [stepStats]
    split <;> omega

theorem runLoop_unwritable (p : String → Nat → ProviderBehavior) (mr : Nat)
    (clock : Nat → DateTime) (N : Nat) (q : String) (rest : List String)
    (hq : collected (p q mr) ≠ []) :
    ∀ (pre : List String) (i : Nat) (st : RunState),
    (∀ x ∈ pre, collected (p x mr) = []) →
    ∃ tr, runLoop p mr false clock N i (pre ++ q :: rest) st
      = .persistenceError
          ⟨⟨st.stats.queries_processed + pre.length, st.stats.urls_found,
            st.stats.errors + pre.countP (fun x => searchRaised (p x mr))
              + (if searchRaised (p q mr) then 1 else 0)⟩, st.file⟩ tr := by
  intro pre
  induction pre with
  | nil =>
    intro i st _
    refine ⟨queryTrace (p q mr), ?_⟩
    rw [List.nil_append, runLoop_cons]
    simp only [search_query_eq]
    rw [save_results_false_nonempty _ _ _ _ hq]
    simp
  | cons e pre' ih =>
    intro i st hpre
    have he : collected (p e mr) = [] := hpre e (List.mem_cons_self e pre')
    obtain ⟨tr, htr⟩ := ih (i + 1)
      ⟨stepStats (p e mr) st.stats, st.file⟩
      (fun x hx => hpre x (List.mem_cons_of_mem e hx))
    refine ⟨queryTrace (p e mr)
      ++ (if i < N then [Effect.sleepUniform 2 4] else []) ++ tr, ?_⟩
    rw [List.cons_append, runLoop_cons]
    simp only [search_query_eq, he]
    rw [save_results_empty]
    simp only [stepStats, he, List.length_nil, Nat.add_zero] at htr
    simp only [List.length_nil, Nat.add_zero]
    rw [htr]
    simp only [List.countP_cons, List.length_cons, RunResult.persistenceError.injEq,
      RunState.mk.injEq, SessionStats.mk.injEq]
    refine ⟨⟨⟨?_, trivial, ?_⟩, trivial⟩, trivial⟩
    · omega
    · generalize (if searchRaised (p q mr) = true then 1 else 0) = a
      generalize (if searchRaised (p e mr) = true then 1 else 0) = b
      omega

/-! ## Claims -/

/-- C1: for every run of the session loop over a sequence of N queries (with
a writable results log, so that the run completes), at the end of the run
`queries_processed` equals N regardless of how many queries errored,
`urls_found` equals the sum over all queries of the number of URLs the
executor returned for that query, and `errors` equals the number of queries
for which the executor raised. -/
theorem c1_session_stats_totals (p : String → Nat → ProviderBehavior) (mr : Nat)
    (clock : Nat → DateTime) (file0 : Option String) (qs : List String) :
    (okState (run p mr true clock file0 qs)).map RunState.stats
      = some ⟨qs.length, (qs.map (fun q => (collected (p q mr)).length)).sum,
              qs.countP (fun q => searchRaised (p q mr))⟩ := by
  obtain ⟨f2, h⟩ := runLoop_true p mr clock qs.length qs 1 ⟨⟨0, 0, 0⟩, file0⟩
  unfold run
  rw [h]
  simp only [okState, Option.map_some]
  rw [foldl_stepStats]
  simp

/-- C2: `load_queries` returns exactly the lines that are non-empty after
trimming and whose trimmed form does not start with a hash, each as its
trimmed string in file order; the result length is the number of such valid
lines; and no returned query is empty after trimming or starts with a
hash. -/
theorem c2_query_filtering (content : String) :
    (load_queries (some content)).1 = ((pyLines content).filter keepLine).map pyStrip
  ∧ (load_queries (some content)).1.length = (pyLines content).countP keepLine
  ∧ ∀ q ∈ (load_queries (some content)).1, pyStrip q ≠ "" ∧ startsWithHash q = false := by
  refine ⟨rfl, ?_, ?_⟩
  · show (((pyLines content).filter keepLine).map pyStrip).length = _
    rw [List.length_map, ← List.countP_eq_length_filter]
  · intro q hq
    have hq' : q ∈ ((pyLines content).filter keepLine).map pyStrip := hq
    simp only [List.mem_map, List.mem_filter] at hq'
    obtain ⟨l, ⟨hl, hkeep⟩, rfl⟩ := hq'
    unfold keepLine at hkeep
    rw [Bool.and_eq_true, Bool.not_eq_true', Bool.not_eq_true'] at hkeep
    obtain ⟨h1, h2⟩ := hkeep
    refine ⟨?_, h2⟩
    rw [pyStrip_idem]
    intro h
    rw [h] at h1
    simp at h1

set_option maxRecDepth 10000 in
/-- C2 witness: on the file content with lines " q1", "#c", "q2", the
returned query "q1" is non-empty after trimming and does not start with a
hash. -/
theorem c2_query_filtering_witness :
    pyStrip "q1" ≠ "" ∧ startsWithHash "q1" = false :=
  (c2_query_filtering " q1\n#c\nq2").2.2 "q1" (by decide)

set_option maxRecDepth 10000 in
/-- C3 counterexample: the text `save_results` appends for one URL is not
the block the specification lists (header, timestamp, count, separator,
URLs, trailing blank line): it carries one extra leading newline. -/
theorem c3_block_format_counterexample :
    okFile (save_results true none "q" ["u"] ⟨2026, 1, 2, 3, 4, 5⟩)
      ≠ some (specBlock "q" ["u"] ⟨2026, 1, 2, 3, 4, 5⟩)
  ∧ okFile (save_results true none "q" ["u"] ⟨2026, 1, 2, 3, 4, 5⟩)
      = some ("\n" ++ specBlock "q" ["u"] ⟨2026, 1, 2, 3, 4, 5⟩) := by
  constructor
  · decide
  · decide

/-- C3 (amended): `save_results` writes nothing when the URL list is empty
(even when the log is not writable, and without creating an absent file);
for a non-empty list it appends exactly one leading newline followed by the
spec's block — query header, a timestamp in YYYY-MM-DD HH:MM:SS form, a
count line stating k, a separator of exactly 50 dashes, the k URL lines in
order, and a trailing blank line. -/
theorem c3_block_format_amended (file : Option String) (q : String)
    (urls : List String) (now : DateTime) :
    (∀ w : Bool, save_results w file q [] now = .ok file)
  ∧ (urls ≠ [] → save_results true file q urls now
        = .ok (some (file.getD "" ++ ("\n" ++ specBlock q urls now))))
  ∧ sepLine.data.length = 50
  ∧ (validDT now → isTimestampForm (pyStrftime now) = true) := by
  refine ⟨fun w => rfl, ?_, by simp [sepLine], fun h => timestamp_form h⟩
  intro h
  have h' : urls.isEmpty = false := by simpa using h
  rw [save_results_true]
  unfold appendPure
  rw [h']
  simp only [Bool.false_eq_true, if_false, resultEntry_eq]

/-- C3 witness: appending two URLs to a log containing "old" produces
exactly the old content, a newline, and the spec block; the formatted
timestamp for 2026-01-02 03:04:05 has the required shape. -/
theorem c3_block_format_amended_witness :
    save_results true (some "old") "q" ["u1", "u2"] ⟨2026, 1, 2, 3, 4, 5⟩
      = .ok (some ("old" ++ ("\n" ++ specBlock "q" ["u1", "u2"] ⟨2026, 1, 2, 3, 4, 5⟩)))
  ∧ isTimestampForm (pyStrftime ⟨2026, 1, 2, 3, 4, 5⟩) = true :=
  ⟨(c3_block_format_amended (some "old") "q" ["u1", "u2"] ⟨2026, 1, 2, 3, 4, 5⟩).2.1
      (by decide),
   (c3_block_format_amended (some "old") "q" ["u1", "u2"] ⟨2026, 1, 2, 3, 4, 5⟩).2.2.2
      (by unfold validDT; decide)⟩

/-- C4: when the provider raises after yielding j URLs (for either failure
class), `search_query` returns exactly the j URLs already collected, adds
one to `errors`, leaves the other counters untouched, and the exception
does not escape: a full run over any query list still completes normally
and processes every query. -/
theorem c4_failure_isolation :
    (∀ (stream : List String) (j : Nat) (k : SearchFailure) (st : SessionStats),
      j ≤ stream.length →
        (search_query ⟨stream, some (j, k)⟩ st).1 = stream.take j
      ∧ (search_query ⟨stream, some (j, k)⟩ st).2.1
          = ⟨st.queries_processed, st.urls_found, st.errors + 1⟩)
  ∧ (∀ (p : String → Nat → ProviderBehavior) (mr : Nat) (clock : Nat → DateTime)
      (file0 : Option String) (q : String) (rest : List String),
      (okState (run p mr true clock file0 (q :: rest))).map
          (fun s => s.stats.queries_processed) = some (rest.length + 1)) := by
  constructor
  · intro stream j k st hj
    have hr : searchRaised ⟨stream, some (j, k)⟩ = true := by
      simp [searchRaised, hj]
    rw [search_query_eq]
    refine ⟨rfl, ?_⟩
    rw [hr]
    simp
  · intro p mr clock file0 q rest
    obtain ⟨f2, h⟩ := runLoop_true p mr clock (q :: rest).length (q :: rest) 1 ⟨⟨0, 0, 0⟩, file0⟩
    unfold run
    rw [h]
    simp only [okState, Option.map_some]
    rw [foldl_stepStats]
    simp

/-- C4 witness: an HTTP error after two of three URLs leaves exactly those
two URLs and bumps only the error counter. -/
theorem c4_failure_isolation_witness :
    (search_query ⟨["a", "b", "c"], some (2, SearchFailure.httpError)⟩ ⟨7, 8, 9⟩).1 = ["a", "b"]
  ∧ (search_query ⟨["a", "b", "c"], some (2, SearchFailure.httpError)⟩ ⟨7, 8, 9⟩).2.1
      = ⟨7, 8, 10⟩ :=
  c4_failure_isolation.1 ["a", "b", "c"] 2 SearchFailure.httpError ⟨7, 8, 9⟩ (by decide)

/-- C5: when the results log is not writable, the first query that yields
URLs makes `save_results` raise; nothing catches the error, so the session
ends with a persistence error, the queries after the failing one are never
processed (`queries_processed` counts only the completed ones), and the log
is unchanged. -/
theorem c5_persistence_error_halts (p : String → Nat → ProviderBehavior) (mr : Nat)
    (clock : Nat → DateTime) (file0 : Option String) (pre : List String)
    (q : String) (rest : List String)
    (hpre : ∀ x ∈ pre, collected (p x mr) = [])
    (hq : collected (p q mr) ≠ []) :
    ∃ tr, run p mr false clock file0 (pre ++ q :: rest)
      = .persistenceError
          ⟨⟨pre.length, 0,
            pre.countP (fun x => searchRaised (p x mr))
              + (if searchRaised (p q mr) then 1 else 0)⟩, file0⟩ tr := by
  obtain ⟨tr, h⟩ := runLoop_unwritable p mr clock (pre ++ q :: rest).length q rest hq
    pre 1 ⟨⟨0, 0, 0⟩, file0⟩ hpre
  refine ⟨tr, ?_⟩
  unfold run
  rw [h]
  simp

/-- C5 witness: with an unwritable log, a three-query session whose second
query yields a URL halts with a persistence error after completing only the
first query, and the third query is never reached. -/
theorem c5_persistence_error_halts_witness :
    ∃ tr, run (fun s _ => if s = "probe" then ⟨[], none⟩ else ⟨["u"], none⟩) 5 false
        (fun _ => ⟨2026, 1, 2, 3, 4, 5⟩) none (["probe"] ++ "go" :: ["later"])
      = .persistenceError ⟨⟨1, 0, 0⟩, none⟩ tr :=
  c5_persistence_error_halts (fun s _ => if s = "probe" then ⟨[], none⟩ else ⟨["u"], none⟩)
    5 (fun _ => ⟨2026, 1, 2, 3, 4, 5⟩) none ["probe"] "go" ["later"]
    (by intro x hx; rw [List.mem_singleton] at hx; subst hx; rfl)
    (by decide)

set_option maxRecDepth 100000 in
/-- C6: when the queries file is absent, `load_queries` first writes the
default template and then reads it, so afterwards the path exists with the
template content, every template line is a comment or blank after trimming,
and the load result is empty. -/
theorem c6_default_template_file :
    load_queries none = (([] : List String), some templateContent)
  ∧ (pyLines templateContent).all
      (fun l => (pyStrip l).data.isEmpty || startsWithHash (pyStrip l)) = true := by
  constructor
  · decide
  · decide

/-- C7: the results log is append-only — every `save_results` leaves the
existing content as a prefix of the new content — and appending results for
the same query twice yields both blocks verbatim, one after the other,
never merged or deduplicated. -/
theorem c7_append_only (file : Option String) (q : String) (urls : List String)
    (now now2 : DateTime) :
    (∀ out, save_results true file q urls now = .ok out →
        ∃ t, out.getD "" = file.getD "" ++ t)
  ∧ (urls ≠ [] →
      save_results true (okFile (save_results true file q urls now)) q urls now2
        = .ok (some ((file.getD "" ++ resultEntry q urls now) ++ resultEntry q urls now2))) := by
  constructor
  · intro out hout
    rw [save_results_true] at hout
    have : out = appendPure file q urls now := by
      cases hout
      rfl
    subst this
    unfold appendPure
    cases hu : urls.isEmpty with
    | true => exact ⟨"", by simp⟩
    | false => exact ⟨resultEntry q urls now, by simp⟩
  · intro h
    have h' : urls.isEmpty = false := by simpa using h
    rw [save_results_true, save_results_true]
    unfold appendPure
    rw [h']
    simp [okFile, save_results_true, appendPure, h']

/-- C7 witness: appending one URL to a log holding "x" keeps "x" as a
prefix, and appending the same query twice stacks the two blocks. -/
theorem c7_append_only_witness :
    (∃ t, (okFile (save_results true (some "x") "q" ["u"] ⟨2026, 1, 2, 3, 4, 5⟩)).getD ""
        = (some "x" : Option String).getD "" ++ t)
  ∧ save_results true (okFile (save_results true (some "x") "q" ["u"] ⟨2026, 1, 2, 3, 4, 5⟩))
        "q" ["u"] ⟨2027, 6, 7, 8, 9, 10⟩
      = .ok (some ((("x" : String) ++ resultEntry "q" ["u"] ⟨2026, 1, 2, 3, 4, 5⟩)
          ++ resultEntry "q" ["u"] ⟨2027, 6, 7, 8, 9, 10⟩)) :=
  ⟨(c7_append_only (some "x") "q" ["u"] ⟨2026, 1, 2, 3, 4, 5⟩ ⟨2027, 6, 7, 8, 9, 10⟩).1
      (okFile (save_results true (some "x") "q" ["u"] ⟨2026, 1, 2, 3, 4, 5⟩)) rfl,
   (c7_append_only (some "x") "q" ["u"] ⟨2026, 1, 2, 3, 4, 5⟩ ⟨2027, 6, 7, 8, 9, 10⟩).2
      (by decide)⟩

/-- C8: pacing as counted effects — during one query the executor emits a
sleep with requested range half to three-halves seconds right after each
collected URL (and so before the next request), and the session loop emits
a sleep with requested range two to four seconds exactly between
consecutive queries, i.e. after query i only when i < N. -/
theorem c8_pacing_effects (p : String → Nat → ProviderBehavior) (mr : Nat)
    (clock : Nat → DateTime) (file0 : Option String) (qs : List String) :
    (∀ b : ProviderBehavior,
        queryTrace b = ((collected b).map
          (fun u => [Effect.collect u, Effect.sleepUniform (1/2) (3/2)])).flatten)
  ∧ okTrace (run p mr true clock file0 qs)
      = some (List.intercalate [Effect.sleepUniform 2 4]
          (qs.map (fun q => queryTrace (p q mr)))) := by
  refine ⟨fun b => queryTrace_eq b, ?_⟩
  obtain ⟨f2, h⟩ := runLoop_true p mr clock qs.length qs 1 ⟨⟨0, 0, 0⟩, file0⟩
  unfold run
  rw [h]
  simp only [okTrace, Option.some_inj]
  exact runTraceAux_intercalate p mr qs 1 qs.length (by omega)

/-- C9: `errors` never exceeds `queries_processed`: the statistics
accumulated after any sequence of loop iterations (so in particular after
each iteration, taking a prefix of the query list) satisfy the bound, and a
completed run's statistics are exactly those accumulated values. -/
theorem c9_errors_bounded (p : String → Nat → ProviderBehavior) (mr : Nat)
    (clock : Nat → DateTime) (file0 : Option String) (qs : List String) :
    (statsAfter p mr qs).errors ≤ (statsAfter p mr qs).queries_processed
  ∧ (okState (run p mr true clock file0 qs)).map RunState.stats
      = some (statsAfter p mr qs) := by
  constructor
  · exact foldl_errors_le p mr qs ⟨0, 0, 0⟩ (Nat.le_refl 0)
  · obtain ⟨f2, h⟩ := runLoop_true p mr clock qs.length qs 1 ⟨⟨0, 0, 0⟩, file0⟩
    unfold run statsAfter
    rw [h]
    simp [okState]

/-- C10: every block `save_results` writes begins with exactly one leading
newline emitted before the query header: the appended text is one newline
followed by the spec's block, its first character is a newline and its
second is the hash of the header line. -/
theorem c10_leading_newline (q : String) (urls : List String) (now : DateTime) :
    resultEntry q urls now = "\n" ++ specBlock q urls now
  ∧ (resultEntry q urls now).data.head? = some '\n'
  ∧ ((resultEntry q urls now).data.drop 1).head? = some '#' :=
  ⟨resultEntry_eq q urls now, rfl, rfl⟩
